import Mathlib

/-!
Verification of the morpheme-to-word post-processing pipeline (`src/lib.rs`):
`prepare_tokens` (feature parser) and `parse_into_words` (word aggregator).
The Rust code is shallowly embedded below; each definition mirrors the
corresponding item in `src/lib.rs`, keeping the source's names and branch
structure.
-/

set_option maxHeartbeats 1000000

namespace Vers

/-- Mirrors `struct RawToken` (src/lib.rs:6): a surface form plus the
analyzer's raw comma-delimited feature string. -/
structure RawToken where
  surface : String
  feature : String
deriving DecidableEq, Repr

/-- Mirrors `enum POS` (src/lib.rs:34): every tag label the dictionary schema
can emit, plus the sentinels `Unset` (the `*` wildcard) and `Unknown`. -/
inductive POS where
  | Meishi
  | KoyuuMeishi
  | DaiMeishi
  | JoDoushi
  | Kazu
  | Joshi
  | Settoushi
  | Doushi
  | Kigou
  | Firaa
  | Sonota
  | Kandoushi
  | Rentaishi
  | Setsuzokushi
  | Fukushi
  | Setsuzokujoshi
  | Keiyoushi
  | Hijiritsu
  | Fukushikanou
  | Sahensetsuzoku
  | Keiyoudoushigokan
  | Naikeiyoushigokan
  | Jodoushigokan
  | Fukushika
  | Taigensetsuzoku
  | Rentaika
  | Tokushu
  | Setsubi
  | Setsuzokushiteki
  | Doushihijiritsuteki
  | SahenSuru
  | TokushuTa
  | TokushuNai
  | TokushuTai
  | TokushuDesu
  | TokushuDa
  | TokushuMasu
  | TokushuNu
  | Fuhenkagata
  | Jinmei
  | MeireiI
  | Kakarijoshi
  | Unset
  | Unknown
deriving DecidableEq, Repr

/-- Mirrors `impl From<&str> for POS` (src/lib.rs:83): total mapping from a
label string to a tag symbol; `*` maps to `Unset`, anything unlisted to
`Unknown`. -/
def POS.fromStr (value : String) : POS :=
  match value with
  | "名詞" => POS.Meishi
  | "固有名詞" => POS.KoyuuMeishi
  | "代名詞" => POS.DaiMeishi
  | "助動詞" => POS.JoDoushi
  | "数" => POS.Kazu
  | "助詞" => POS.Joshi
  | "接頭詞" => POS.Settoushi
  | "動詞" => POS.Doushi
  | "記号" => POS.Kigou
  | "フィラー" => POS.Firaa
  | "その他" => POS.Sonota
  | "感動詞" => POS.Kandoushi
  | "連体詞" => POS.Rentaishi
  | "接続詞" => POS.Setsuzokushi
  | "副詞" => POS.Fukushi
  | "接続助詞" => POS.Setsuzokujoshi
  | "形容詞" => POS.Keiyoushi
  | "非自立" => POS.Hijiritsu
  | "副詞可能" => POS.Fukushikanou
  | "サ変接続" => POS.Sahensetsuzoku
  | "形容動詞語幹" => POS.Keiyoudoushigokan
  | "ナイ形容詞語幹" => POS.Naikeiyoushigokan
  | "助動詞語幹" => POS.Jodoushigokan
  | "副詞化" => POS.Fukushika
  | "体言接続" => POS.Taigensetsuzoku
  | "連体化" => POS.Rentaika
  | "特殊" => POS.Tokushu
  | "接尾" => POS.Setsubi
  | "接続詞的" => POS.Setsuzokushiteki
  | "動詞非自立的" => POS.Doushihijiritsuteki
  | "サ変・スル" => POS.SahenSuru
  | "特殊・タ" => POS.TokushuTa
  | "特殊・ナイ" => POS.TokushuNai
  | "特殊・タイ" => POS.TokushuTai
  | "特殊・デス" => POS.TokushuDesu
  | "特殊・ダ" => POS.TokushuDa
  | "特殊・マス" => POS.TokushuMasu
  | "特殊・ヌ" => POS.TokushuNu
  | "不変化型" => POS.Fuhenkagata
  | "人名" => POS.Jinmei
  | "命令ｉ" => POS.MeireiI
  | "係助詞" => POS.Kakarijoshi
  | "*" => POS.Unset
  | _ => POS.Unknown

/-- Mirrors `struct PreparedToken` (src/lib.rs:20). -/
structure PreparedToken where
  literal : String
  pos : POS
  pos2 : POS
  pos3 : POS
  pos4 : POS
  inflection_type : POS
  inflection_form : POS
  «lemma» : String
  reading : String
  hatsuon : String
deriving DecidableEq, Repr

/-- The string constants of src/lib.rs:134-140. -/
def NA : String := "な"

def NI : String := "に"

def TE : String := "て"

def DE : String := "で"

def BA : String := "ば"

def NN : String := "ん"

def SA : String := "さ"

/-- Mirrors `enum PartOfSpeech` (src/lib.rs:160). -/
inductive PartOfSpeech where
  | Noun
  | ProperNoun
  | Pronoun
  | Adjective
  | Adverb
  | Determiner
  | Preposition
  | Postposition
  | Verb
  | Suffix
  | Prefix
  | Conjunction
  | Interjection
  | Number
  | Unknown
  | Symbol
  | Other
deriving DecidableEq, Repr

/-- Mirrors `enum Grammar` (src/lib.rs:181); the source spells it
`Auxillary`. -/
inductive Grammar where
  | Auxillary
  | Nominal
deriving DecidableEq, Repr

/-- Mirrors `struct WordExtra` (src/lib.rs:153). -/
structure WordExtra where
  reading : String
  transcription : String
  grammar : Option Grammar
deriving DecidableEq, Repr

/-- Mirrors `struct Word` (src/lib.rs:144). -/
structure Word where
  word : String
  «lemma» : String
  part_of_speech : PartOfSpeech
  tokens : List PreparedToken
  extra : WordExtra
deriving DecidableEq, Repr

/-- The error returned by `prepare_tokens` through `bail!`.
`malformedFeature` is the message of src/lib.rs:191 ("Couldn't read all
features from token"); `unrecognizedPrimaryPos` is the message of
src/lib.rs:205 ("The main POS of token '{}' couldn't be identified"),
carrying the offending surface form. -/
inductive PrepError where
  | malformedFeature
  | unrecognizedPrimaryPos (surface : String)
deriving DecidableEq, Repr

/-- Outcome of running a fallible Rust function whose body may also panic:
`ok` / `err` are the two sides of `Result`, and `panicked` records an
unwinding panic (e.g. an out-of-bounds slice index), which in Rust is a
separate channel from the returned `Result`. -/
inductive RustResult (ε : Type) (α : Type) where
  | ok (val : α)
  | err (e : ε)
  | panicked (msg : String)
deriving DecidableEq, Repr

/-- Splitting a character list at every `,`, the semantics of Rust's
`str::split(',')` (src/lib.rs:188): the result always has one more group
than there are commas; an empty input gives one empty group, and leading,
trailing and adjacent commas give empty groups. -/
def splitCommaChars : List Char → List (List Char)
  | [] => [[]]
  | c :: cs =>
      if c = ',' then [] :: splitCommaChars cs
      else
        match splitCommaChars cs with
        | [] => [[c]]
        | g :: gs => (c :: g) :: gs

/-- Rust's `feature.split(',').collect::<Vec<&str>>()` (src/lib.rs:188). -/
def splitComma (s : String) : List String :=
  (splitCommaChars s.data).map (fun l => String.mk l)

/-- One iteration of the closure in `prepare_tokens` (src/lib.rs:187-224).

Semantics of the source, line by line: `raw_token.feature.split(',')`
produces the field list. `features[..6]` (src/lib.rs:190) PANICS with an
out-of-bounds range error when fewer than 6 fields are present, so the
`else bail!("Couldn't read all features…")` branch of the let-else is
unreachable: with 6 or more fields the slice has length exactly 6 and the
slice pattern always matches. `lemma`/`reading`/`hatsuon` are
`features.get(7/8/9)` (0-based, src/lib.rs:194-196) defaulting to `""`.
The only reachable `bail!` is the `Unset` check on the primary tag
(src/lib.rs:205); the `Unknown` checks for the deeper fields are commented
out in the source. -/
def prepare_token (raw_token : RawToken) : RustResult PrepError PreparedToken :=
  let features := splitComma raw_token.feature
  match features with
  | pos :: pos2 :: pos3 :: pos4 :: inflection_type :: inflection_form :: _ =>
      let «lemma» := (features.get? 7).getD ""
      let reading := (features.get? 8).getD ""
      let hatsuon := (features.get? 9).getD ""
      if POS.fromStr pos = POS.Unset then
        RustResult.err (PrepError.unrecognizedPrimaryPos raw_token.surface)
      else
        RustResult.ok
          { literal := raw_token.surface
            pos := POS.fromStr pos
            pos2 := POS.fromStr pos2
            pos3 := POS.fromStr pos3
            pos4 := POS.fromStr pos4
            inflection_type := POS.fromStr inflection_type
            inflection_form := POS.fromStr inflection_form
            «lemma» := «lemma»
            reading := reading
            hatsuon := hatsuon }
  | _ => RustResult.panicked "range end index 6 out of range"

/-- Mirrors `pub fn prepare_tokens` (src/lib.rs:186): map `prepare_token`
over the input, short-circuiting on the first error (as
`collect::<Result<Vec<_>>>` does) or panic. -/
def prepare_tokens : List RawToken → RustResult PrepError (List PreparedToken)
  | [] => RustResult.ok []
  | raw_token :: rest =>
      match prepare_token raw_token with
      | RustResult.panicked m => RustResult.panicked m
      | RustResult.err e => RustResult.err e
      | RustResult.ok t =>
          match prepare_tokens rest with
          | RustResult.panicked m => RustResult.panicked m
          | RustResult.err e => RustResult.err e
          | RustResult.ok ts => RustResult.ok (t :: ts)

/-- The errors `parse_into_words` can return through `bail!`:
`unresolvedPartOfSpeech` is src/lib.rs:411 ("Part of speech couldn't be
recognized for token {}"), carrying the offending literal;
`missingLookaheadToken` is src/lib.rs:452 ("eat_next was set despite there
being no following token"). -/
inductive AggError where
  | unresolvedPartOfSpeech (literal : String)
  | missingLookaheadToken
deriving DecidableEq, Repr

/-- The final values of the seven mutable decision variables of one
iteration of the `parse_into_words` loop (src/lib.rs:234-240). -/
structure RuleResult where
  pos : Option PartOfSpeech
  grammar : Option Grammar
  eat_next : Bool
  eat_lemma : Bool
  attach_to_previous : Bool
  also_attach_to_lemma : Bool
  update_pos : Bool
deriving DecidableEq, Repr

/-- The initial values of the decision variables (src/lib.rs:234-240):
`pos = None`, `grammar = None`, all flags `false`. -/
def rdefault : RuleResult :=
  { pos := none
    grammar := none
    eat_next := false
    eat_lemma := false
    attach_to_previous := false
    also_attach_to_lemma := false
    update_pos := false }

/-- The rule grammar: the big `match token.pos` of `parse_into_words`
(src/lib.rs:242-407), transcribed branch by branch. Inputs are the current
token, the peeked next token (`iter.peek()`, i.e. the head of the remaining
token list), the part of speech of the last emitted word (`words.last()`,
consulted only by the numeral rule), and the `previous` token (consulted
only by the auxiliary-verb rule). Each branch's record gives the final
values all seven mutable variables hold when the `match` ends. -/
def decide_rule (token : PreparedToken) (peeked : Option PreparedToken)
    (last_word_pos : Option PartOfSpeech) (previous : Option PreparedToken) : RuleResult :=
  match token.pos with
  | POS.Meishi =>
      -- pos is first set to Noun (src/lib.rs:243); inner branches may
      -- overwrite it, and any fall-through leaves it at Noun.
      match token.pos2 with
      | POS.KoyuuMeishi => { rdefault with pos := some PartOfSpeech.ProperNoun }
      | POS.DaiMeishi => { rdefault with pos := some PartOfSpeech.Pronoun }
      | POS.Fukushikanou | POS.Sahensetsuzoku | POS.Keiyoudoushigokan
      | POS.Naikeiyoushigokan =>
          match peeked with
          | some following =>
              if following.inflection_type = POS.SahenSuru then
                { rdefault with pos := some PartOfSpeech.Verb, eat_next := true }
              else if following.inflection_type = POS.TokushuDa then
                if following.inflection_form = POS.Taigensetsuzoku then
                  -- src/lib.rs:263-264 sets eat_next = true and
                  -- (redundantly) eat_lemma = false
                  { rdefault with pos := some PartOfSpeech.Adjective, eat_next := true }
                else
                  { rdefault with pos := some PartOfSpeech.Adjective }
              else if following.inflection_type = POS.TokushuNai then
                { rdefault with pos := some PartOfSpeech.Adjective, eat_next := true }
              else if following.pos = POS.Joshi ∧ following.literal = NI then
                { rdefault with pos := some PartOfSpeech.Adverb, eat_next := false }
              else
                { rdefault with pos := some PartOfSpeech.Noun }
          | none => { rdefault with pos := some PartOfSpeech.Noun }
      | POS.Hijiritsu | POS.Tokushu =>
          match peeked with
          | some following =>
              match token.pos3 with
              | POS.Fukushikanou =>
                  if following.pos = POS.Joshi ∧ following.literal = NI then
                    { rdefault with pos := some PartOfSpeech.Adverb, eat_next := true }
                  else
                    { rdefault with pos := some PartOfSpeech.Noun }
              | POS.Jodoushigokan =>
                  if following.inflection_type = POS.TokushuDa then
                    { rdefault with
                      pos := some PartOfSpeech.Verb
                      grammar := some Grammar.Auxillary
                      eat_next := decide (following.inflection_form = POS.Taigensetsuzoku) }
                  else if following.pos = POS.Joshi ∧ following.pos2 = POS.Fukushika then
                    { rdefault with pos := some PartOfSpeech.Adverb, eat_next := true }
                  else
                    { rdefault with pos := some PartOfSpeech.Noun }
              | POS.Keiyoudoushigokan =>
                  { rdefault with
                    pos := some PartOfSpeech.Adjective
                    eat_next := decide ((following.inflection_type = POS.TokushuDa ∧
                      following.inflection_form = POS.Taigensetsuzoku) ∨
                      following.pos2 = POS.Rentaika) }
              | _ => { rdefault with pos := some PartOfSpeech.Noun }
          | none => { rdefault with pos := some PartOfSpeech.Noun }
      | POS.Kazu =>
          if last_word_pos = some PartOfSpeech.Number then
            { rdefault with
              pos := some PartOfSpeech.Number
              attach_to_previous := true
              also_attach_to_lemma := true }
          else
            { rdefault with pos := some PartOfSpeech.Number }
      | POS.Setsubi =>
          if token.pos3 = POS.Jinmei then
            { rdefault with pos := some PartOfSpeech.Suffix }
          else if token.pos3 = POS.Tokushu ∧ token.«lemma» = SA then
            { rdefault with
              pos := some PartOfSpeech.Noun
              update_pos := true
              attach_to_previous := true }
          else
            { rdefault with
              pos := some PartOfSpeech.Noun
              also_attach_to_lemma := true
              attach_to_previous := true }
      | POS.Setsuzokushiteki => { rdefault with pos := some PartOfSpeech.Conjunction }
      | POS.Doushihijiritsuteki =>
          { rdefault with pos := some PartOfSpeech.Verb, grammar := some Grammar.Nominal }
      | _ => { rdefault with pos := some PartOfSpeech.Noun }
  | POS.Settoushi => { rdefault with pos := some PartOfSpeech.Prefix }
  | POS.JoDoushi =>
      -- pos is first set to Postposition (src/lib.rs:350)
      if (previous.isNone || previous.any fun p => p.pos2 != POS.Kakarijoshi) ∧
          token.inflection_type ∈ [POS.TokushuTa, POS.TokushuNai, POS.TokushuTai,
            POS.TokushuMasu, POS.TokushuNu] then
        { rdefault with pos := some PartOfSpeech.Postposition, attach_to_previous := true }
      else if token.inflection_type = POS.Fuhenkagata ∧ token.«lemma» = NN then
        { rdefault with pos := some PartOfSpeech.Postposition, attach_to_previous := true }
      else if token.inflection_type ∈ [POS.TokushuDa, POS.TokushuDesu] ∧
          token.literal ≠ NA then
        { rdefault with pos := some PartOfSpeech.Verb }
      else
        { rdefault with pos := some PartOfSpeech.Postposition }
  | POS.Doushi =>
      if token.pos2 = POS.Setsubi then
        { rdefault with pos := some PartOfSpeech.Verb, attach_to_previous := true }
      else if token.pos2 = POS.Hijiritsu ∧ token.inflection_form ≠ POS.MeireiI then
        { rdefault with pos := some PartOfSpeech.Verb, attach_to_previous := true }
      else
        { rdefault with pos := some PartOfSpeech.Verb }
  | POS.Keiyoushi => { rdefault with pos := some PartOfSpeech.Adjective }
  | POS.Joshi =>
      if token.pos2 = POS.Setsuzokujoshi ∧ token.literal ∈ [TE, DE, BA] then
        { rdefault with pos := some PartOfSpeech.Postposition, attach_to_previous := true }
      else
        { rdefault with pos := some PartOfSpeech.Postposition }
  | POS.Rentaishi => { rdefault with pos := some PartOfSpeech.Determiner }
  | POS.Setsuzokushi => { rdefault with pos := some PartOfSpeech.Conjunction }
  | POS.Fukushi => { rdefault with pos := some PartOfSpeech.Adverb }
  | POS.Kigou => { rdefault with pos := some PartOfSpeech.Symbol }
  | POS.Firaa | POS.Kandoushi => { rdefault with pos := some PartOfSpeech.Interjection }
  | POS.Sonota => { rdefault with pos := some PartOfSpeech.Other }
  | _ => rdefault

/-- Attaching a token to the last emitted word (src/lib.rs:418-433): surface,
reading and transcription are always extended; the lemma only when
`also_attach_to_lemma`; the part of speech is overwritten only when
`update_pos` (passed here as `new_pos = some …`). The token is pushed onto
the word's constituent list. -/
def attach_token (w : Word) (token : PreparedToken) (also_attach_to_lemma : Bool)
    (new_pos : Option PartOfSpeech) : Word :=
  { w with
    word := w.word ++ token.literal
    «lemma» := if also_attach_to_lemma then w.«lemma» ++ token.«lemma» else w.«lemma»
    part_of_speech := new_pos.getD w.part_of_speech
    tokens := w.tokens ++ [token]
    extra :=
      { w.extra with
        reading := w.extra.reading ++ token.reading
        transcription := w.extra.transcription ++ token.hatsuon } }

/-- Starting a new word from a token (src/lib.rs:438-448). -/
def new_word (token : PreparedToken) (pos : PartOfSpeech) (grammar : Option Grammar) : Word :=
  { word := token.literal
    «lemma» := token.«lemma»
    part_of_speech := pos
    tokens := [token]
    extra :=
      { reading := token.reading
        transcription := token.hatsuon
        grammar := grammar } }

/-- Folding the consumed lookahead token into the freshly started word
(src/lib.rs:455-462): surface, reading and transcription are extended, the
lemma only when `eat_lemma`, and the token is pushed onto the word's
constituent list. -/
def eat_token (w : Word) (following : PreparedToken) (eat_lemma : Bool) : Word :=
  { w with
    word := w.word ++ following.literal
    «lemma» := if eat_lemma then w.«lemma» ++ following.«lemma» else w.«lemma»
    tokens := w.tokens ++ [following]
    extra :=
      { w.extra with
        reading := w.extra.reading ++ following.reading
        transcription := w.extra.transcription ++ following.hatsuon } }

/-- In-place mutation of the last element of the word list
(`words.last_mut()`, src/lib.rs:419); on an empty list it does nothing (the
source guards the call with `words.len() > 0`). -/
def modifyLast (f : Word → Word) : List Word → List Word
  | [] => []
  | [w] => [f w]
  | w :: ws => w :: modifyLast f ws

/-- The `while let Some(token) = iter.next()` loop of `parse_into_words`
(src/lib.rs:233-468), as a recursion over the remaining token list. The
state is the word accumulator `words` and the `previous` token. Each
iteration decides the rule (with `iter.peek()` = head of the rest and
`words.last()`), then either attaches the token to the last word, or starts
a new word — consuming the lookahead token from the rest when `eat_next` is
set — and finally records the current loop token as `previous`
(src/lib.rs:467). -/
def parseLoop : List PreparedToken → List Word → Option PreparedToken →
    Except AggError (List Word)
  | [], words, _ => Except.ok words
  | token :: rest, words, previous =>
      let r := decide_rule token rest.head?
        ((words.getLast?).map (fun w => w.part_of_speech)) previous
      match r.pos with
      | none => Except.error (AggError.unresolvedPartOfSpeech token.literal)
      | some pos =>
          if r.attach_to_previous ∧ words ≠ [] then
            parseLoop rest
              (modifyLast
                (fun last => attach_token last token r.also_attach_to_lemma
                  (if r.update_pos then some pos else none)) words)
              (some token)
          else
            let w := new_word token pos r.grammar
            if r.eat_next then
              match rest with
              | [] => Except.error AggError.missingLookaheadToken
              | following :: rest2 =>
                  parseLoop rest2 (words ++ [eat_token w following r.eat_lemma]) (some token)
            else
              parseLoop rest (words ++ [w]) (some token)

/-- Mirrors `pub fn parse_into_words` (src/lib.rs:228): run the aggregation
loop on the token sequence with an empty accumulator and no previous
token. -/
def parse_into_words (tokens : List PreparedToken) : Except AggError (List Word) :=
  parseLoop tokens [] none

/-- Modelled from the spec: a variant of the aggregation loop in which
"previous" is "the last consumed token" in the strong sense of C6 — after a
rule consumes its lookahead token, the next iteration sees that consumed
lookahead token as `previous` (instead of the token that triggered the
consumption, which is what the source records at src/lib.rs:467). Identical
to `parseLoop` in every other respect; used only to compare the source's
behaviour against this reading. -/
def parseLoopSpecPrev : List PreparedToken → List Word → Option PreparedToken →
    Except AggError (List Word)
  | [], words, _ => Except.ok words
  | token :: rest, words, previous =>
      let r := decide_rule token rest.head?
        ((words.getLast?).map (fun w => w.part_of_speech)) previous
      match r.pos with
      | none => Except.error (AggError.unresolvedPartOfSpeech token.literal)
      | some pos =>
          if r.attach_to_previous ∧ words ≠ [] then
            parseLoopSpecPrev rest
              (modifyLast
                (fun last => attach_token last token r.also_attach_to_lemma
                  (if r.update_pos then some pos else none)) words)
              (some token)
          else
            let w := new_word token pos r.grammar
            if r.eat_next then
              match rest with
              | [] => Except.error AggError.missingLookaheadToken
              | following :: rest2 =>
                  parseLoopSpecPrev rest2 (words ++ [eat_token w following r.eat_lemma])
                    (some following)
            else
              parseLoopSpecPrev rest (words ++ [w]) (some token)

/-- Modelled from the spec: `parse_into_words` under the C6 reading of
"previous". -/
def parse_into_words_specPrev (tokens : List PreparedToken) : Except AggError (List Word) :=
  parseLoopSpecPrev tokens [] none

/-- Ordered concatenation of a list of strings. -/
def sjoin : List String → String
  | [] => ""
  | s :: rest => s ++ sjoin rest

/-- A word's surface is exactly the ordered concatenation of its constituent
tokens' literals. -/
def wordSurfOK (w : Word) : Prop :=
  w.word = sjoin (w.tokens.map fun t => t.literal)

/-- The thirteen primary POS tags that have an arm in the aggregator's
`match token.pos` (src/lib.rs:242-406); every other primary tag falls to the
wildcard arm and leaves `pos = None`. -/
def handledPrimary : List POS :=
  [POS.Meishi, POS.Settoushi, POS.JoDoushi, POS.Doushi, POS.Keiyoushi, POS.Joshi,
    POS.Rentaishi, POS.Setsuzokushi, POS.Fukushi, POS.Kigou, POS.Firaa, POS.Kandoushi,
    POS.Sonota]

/-- Whether an aggregation outcome is the missing-lookahead-token error of
src/lib.rs:452. -/
def isMissingLookahead : Except AggError (List Word) → Bool
  | Except.error AggError.missingLookaheadToken => true
  | _ => false

/-- Sample token: an independent verb stem (動詞, e.g. 食べ). -/
def tokVerb : PreparedToken :=
  ⟨"食べ", POS.Doushi, POS.Unset, POS.Unset, POS.Unset, POS.Unset, POS.Unset,
    "食べる", "タベ", "タベ"⟩

/-- Sample token: the past auxiliary verb た (助動詞, 特殊・タ). -/
def tokTa : PreparedToken :=
  ⟨"た", POS.JoDoushi, POS.Unset, POS.Unset, POS.Unset, POS.TokushuTa, POS.Unset,
    "た", "タ", "タ"⟩

/-- Sample token: a plain noun (名詞 with unset sub-categories). -/
def tokNoun : PreparedToken :=
  ⟨"深", POS.Meishi, POS.Unset, POS.Unset, POS.Unset, POS.Unset, POS.Unset,
    "深", "フカ", "フカ"⟩

/-- Sample token: the nominalizing suffix さ (名詞, 接尾, 特殊, lemma さ). -/
def tokSa : PreparedToken :=
  ⟨"さ", POS.Meishi, POS.Setsubi, POS.Tokushu, POS.Unset, POS.Unset, POS.Unset,
    "さ", "サ", "サ"⟩

/-- Sample token: an ordinary noun suffix (名詞, 接尾, neither 人名 nor the
特殊 さ case). -/
def tokTachi : PreparedToken :=
  ⟨"達", POS.Meishi, POS.Setsubi, POS.Unset, POS.Unset, POS.Unset, POS.Unset,
    "達", "タチ", "タチ"⟩

/-- Sample token: the numeral 3 (名詞, 数). -/
def tokNum3 : PreparedToken :=
  ⟨"3", POS.Meishi, POS.Kazu, POS.Unset, POS.Unset, POS.Unset, POS.Unset,
    "3", "サン", "サン"⟩

/-- Sample token: the numeral 000 (名詞, 数). -/
def tokNum000 : PreparedToken :=
  ⟨"000", POS.Meishi, POS.Kazu, POS.Unset, POS.Unset, POS.Unset, POS.Unset,
    "000", "", ""⟩

/-- Sample token: an adjectival-stem noun (名詞, 形容動詞語幹) whose rules
all need lookahead. -/
def tokKirei : PreparedToken :=
  ⟨"きれい", POS.Meishi, POS.Keiyoudoushigokan, POS.Unset, POS.Unset, POS.Unset,
    POS.Unset, "きれい", "キレイ", "キレイ"⟩

/-- Sample token: a sahen-connecting noun (名詞, サ変接続). -/
def tokBenkyou : PreparedToken :=
  ⟨"勉強", POS.Meishi, POS.Sahensetsuzoku, POS.Unset, POS.Unset, POS.Unset, POS.Unset,
    "勉強", "ベンキョウ", "ベンキョー"⟩

/-- Sample token: し with inflection type サ変・スル, and (artificially) a
係助詞 second-level tag, to separate the two readings of "previous" in C6. -/
def tokShi : PreparedToken :=
  ⟨"し", POS.Doushi, POS.Kakarijoshi, POS.Unset, POS.Unset, POS.SahenSuru, POS.Unset,
    "する", "シ", "シ"⟩

lemma sjoin_append (l1 l2 : List String) : sjoin (l1 ++ l2) = sjoin l1 ++ sjoin l2 := by
  induction l1 with
  | nil => simp [sjoin]
  | cons a l ih => simp [sjoin, ih, String.append_assoc]

lemma modifyLast_concat (f : Word → Word) : ∀ (ws : List Word) (w : Word),
    modifyLast f (ws ++ [w]) = ws ++ [f w]
  | [], _ => rfl
  | [_], _ => rfl
  | a :: b :: ws, w => by
      show a :: modifyLast f ((b :: ws) ++ [w]) = a :: ((b :: ws) ++ [f w])
      rw [modifyLast_concat f (b :: ws) w]

/-- C4: a raw morpheme whose feature string splits into fewer than 6
comma-separated fields does NOT produce the descriptive `MalformedFeature`
error result: the slice indexing `features[..6]` at src/lib.rs:190 panics
first, so `prepare_tokens` aborts by panicking and the let-else `bail!`
branch is dead code. Evaluated here at the failing input
`{surface: "x", feature: "名詞,一般"}` (2 fields). -/
theorem prepare_tokens_short_feature_panics :
    prepare_tokens [⟨"x", "名詞,一般"⟩] =
      RustResult.panicked "range end index 6 out of range" ∧
    splitComma "名詞,一般" = ["名詞", "一般"] ∧
    (∀ e : PrepError,
      (RustResult.panicked "range end index 6 out of range" :
        RustResult PrepError (List PreparedToken)) ≠ RustResult.err e) := by
  refine ⟨rfl, rfl, ?_⟩
  intro e h
  cases h

/-- C3: the off-by-one in the optional feature fields, evaluated at a
9-field IPADIC-shaped feature string
`名詞,一般,*,*,*,*,原形,ヨミ,ハツオン` (7th field = lemma 原形, 8th =
reading ヨミ, 9th = transcription ハツオン). The code reads
`features.get(7/8/9)` (src/lib.rs:194-196), i.e. the 8th/9th/10th fields,
so the produced token carries the reading in its lemma field, the
transcription in its reading field, and empty text as transcription —
not the 7th/8th/9th fields the schema (and the spec) assign. -/
theorem prepare_tokens_optional_fields_off_by_one :
    prepare_tokens [⟨"猫", "名詞,一般,*,*,*,*,原形,ヨミ,ハツオン"⟩] =
      RustResult.ok [⟨"猫", POS.Meishi, POS.Unknown, POS.Unset, POS.Unset, POS.Unset,
        POS.Unset, "ヨミ", "ハツオン", ""⟩] ∧
    ("ヨミ" : String) ≠ "原形" ∧ ("ハツオン" : String) ≠ "ヨミ" ∧ ("" : String) ≠ "ハツオン" := by
  exact ⟨rfl, by decide, by decide, by decide⟩

/-- C2 counterexample: a raw morpheme whose feature string's first field is
the unrecognized label `zzz` (which maps to `POS::Unknown`) is ACCEPTED by
`prepare_tokens` — only the `Unset` wildcard `*` is rejected
(src/lib.rs:205 tests `parsed_pos == POS::Unset`; the `Unknown` checks are
commented out) — refuting the claim that an unrecognized primary label
causes `UnrecognizedPrimaryPos`. -/
theorem prepare_tokens_unknown_primary_accepted :
    prepare_tokens [⟨"x", "zzz,*,*,*,*,*"⟩] =
      RustResult.ok [⟨"x", POS.Unknown, POS.Unset, POS.Unset, POS.Unset, POS.Unset,
        POS.Unset, "", "", ""⟩] ∧
    POS.fromStr "zzz" = POS.Unknown ∧
    ((RustResult.ok [⟨"x", POS.Unknown, POS.Unset, POS.Unset, POS.Unset, POS.Unset,
          POS.Unset, "", "", ""⟩] : RustResult PrepError (List PreparedToken)) ≠
      RustResult.err (PrepError.unrecognizedPrimaryPos "x")) := by
  exact ⟨rfl, rfl, by decide⟩

/-- C5 counterexample: a token sequence ending in an adjectival-stem noun
(名詞, 形容動詞語幹) — the claim's own example of a final token "whose rule
requires consume_lookahead" — does NOT yield `MissingLookaheadToken`:
every lookahead rule is guarded by `if let Some(following) = iter.peek()`
(src/lib.rs:256, 276), so with no following token `eat_next` is never set
and the token falls back to a plain Noun word; aggregation succeeds. -/
theorem parse_final_adjectival_stem_succeeds :
    parse_into_words [tokKirei] =
      Except.ok [⟨"きれい", "きれい", PartOfSpeech.Noun, [tokKirei],
        ⟨"キレイ", "キレイ", none⟩⟩] ∧
    isMissingLookahead (parse_into_words [tokKirei]) = false := by
  exact ⟨rfl, rfl⟩

/-- C6 counterexample: the code's `previous` is NOT the consumed lookahead
token. Input: 勉強 (サ変接続 noun, triggers consuming し) then し (eaten;
artificially tagged 係助詞 at the second level) then た (助動詞, 特殊・タ).
The source records the trigger token 勉強 as `previous` (src/lib.rs:467),
whose pos2 is not 係助詞, so た attaches and ONE word results; under the
claim's reading `previous` would be し (pos2 = 係助詞), the binding-particle
condition would fail, and た would start a second word — as the
spec-modelled variant shows. The two outputs differ. -/
theorem parse_previous_is_trigger_cex :
    parse_into_words [tokBenkyou, tokShi, tokTa] =
      Except.ok [⟨"勉強した", "勉強", PartOfSpeech.Verb, [tokBenkyou, tokShi, tokTa],
        ⟨"ベンキョウシタ", "ベンキョーシタ", none⟩⟩] ∧
    parse_into_words_specPrev [tokBenkyou, tokShi, tokTa] =
      Except.ok [⟨"勉強し", "勉強", PartOfSpeech.Verb, [tokBenkyou, tokShi],
        ⟨"ベンキョウシ", "ベンキョーシ", none⟩⟩,
        ⟨"た", "た", PartOfSpeech.Postposition, [tokTa], ⟨"タ", "タ", none⟩⟩] ∧
    ([(⟨"勉強した", "勉強", PartOfSpeech.Verb, [tokBenkyou, tokShi, tokTa],
        ⟨"ベンキョウシタ", "ベンキョーシタ", none⟩⟩ : Word)] ≠
      [⟨"勉強し", "勉強", PartOfSpeech.Verb, [tokBenkyou, tokShi],
        ⟨"ベンキョウシ", "ベンキョーシ", none⟩⟩,
        ⟨"た", "た", PartOfSpeech.Postposition, [tokTa], ⟨"タ", "タ", none⟩⟩]) := by
  exact ⟨rfl, rfl, by decide⟩

/-- C8 counterexample: the non-person-name noun suffix さ (接尾, 特殊, lemma
さ) attaches to the previous word WITHOUT extending its lemma — the 特殊+さ
branch (src/lib.rs:327-329) sets `update_pos` instead of
`also_attach_to_lemma` — refuting the claim that every non-person-name
noun suffix extends the previous word's lemma. The word keeps the lemma 深
of its first token rather than the claimed 深さ. -/
theorem parse_sa_suffix_no_lemma_extension :
    parse_into_words [tokNoun, tokSa] =
      Except.ok [⟨"深さ", "深", PartOfSpeech.Noun, [tokNoun, tokSa],
        ⟨"フカサ", "フカサ", none⟩⟩] ∧
    tokNoun.«lemma» ++ tokSa.«lemma» = "深さ" ∧ ("深" : String) ≠ "深さ" := by
  exact ⟨rfl, rfl, by decide⟩

lemma decide_rule_no_peek_no_eat (t : PreparedToken) (lw : Option PartOfSpeech)
    (prev : Option PreparedToken) : (decide_rule t none lw prev).eat_next = false := by
  obtain ⟨lit, pos, pos2, pos3, pos4, it, ifm, lem, rd, ht⟩ := t
  cases pos <;> simp only [decide_rule] <;> (repeat' split) <;> rfl

lemma new_word_surfOK (t : PreparedToken) (p : PartOfSpeech) (g : Option Grammar) :
    wordSurfOK (new_word t p g) := by
  simp [wordSurfOK, new_word, sjoin]

lemma attach_token_surfOK {w : Word} (hw : wordSurfOK w) (t : PreparedToken)
    (b : Bool) (np : Option PartOfSpeech) : wordSurfOK (attach_token w t b np) := by
  have hw' : w.word = sjoin (w.tokens.map fun t => t.literal) := hw
  simp [wordSurfOK, attach_token, sjoin_append, sjoin, hw']

lemma eat_token_surfOK {w : Word} (hw : wordSurfOK w) (t : PreparedToken) (b : Bool) :
    wordSurfOK (eat_token w t b) := by
  have hw' : w.word = sjoin (w.tokens.map fun t => t.literal) := hw
  simp [wordSurfOK, eat_token, sjoin_append, sjoin, hw']

lemma mem_concat_surfOK {ws : List Word} {nw : Word} (hws : ∀ w ∈ ws, wordSurfOK w)
    (hnw : wordSurfOK nw) : ∀ w ∈ ws ++ [nw], wordSurfOK w := by
  intro w hw
  rcases List.mem_append.mp hw with hw | hw
  · exact hws w hw
  · rw [List.mem_singleton.mp hw]
    exact hnw

lemma parseLoop_ok_aux : ∀ (n : ℕ) (rest : List PreparedToken), rest.length ≤ n →
    ∀ (words : List Word) (previous : Option PreparedToken) (ws : List Word),
    (∀ w ∈ words, wordSurfOK w) →
    parseLoop rest words previous = Except.ok ws →
    (∀ w ∈ ws, wordSurfOK w) ∧
      ws.flatMap (fun w => w.tokens) = words.flatMap (fun w => w.tokens) ++ rest := by
  intro n
  induction n with
  | zero =>
      intro rest hle words previous ws hws h
      have hnil : rest = [] := List.eq_nil_of_length_eq_zero (Nat.le_zero.mp hle)
      subst hnil
      simp only [parseLoop, Except.ok.injEq] at h
      subst h
      exact ⟨hws, by simp⟩
  | succ n ih =>
      intro rest hle words previous ws hws h
      cases rest with
      | nil =>
          simp only [parseLoop, Except.ok.injEq] at h
          subst h
          exact ⟨hws, by simp⟩
      | cons token rest =>
          simp only [parseLoop] at h
          split at h
          · exact absurd h (by simp)
          · split at h
            · -- attach to previous word
              rename_i hatt
              obtain ⟨ws0, last, rfl⟩ : ∃ ws0 last, words = ws0 ++ [last] :=
                ⟨words.dropLast, words.getLast hatt.2,
                  (List.dropLast_concat_getLast hatt.2).symm⟩
              rw [modifyLast_concat] at h
              obtain ⟨h1, h2⟩ := ih _
                (by simp only [List.length_cons] at hle; omega) _ (some token) ws
                (mem_concat_surfOK (fun w hw => hws w (List.mem_append.mpr (Or.inl hw)))
                  (attach_token_surfOK (hws last (by simp)) _ _ _)) h
              refine ⟨h1, ?_⟩
              rw [h2]
              simp [attach_token, List.flatMap_append]
            · -- start a new word
              split at h
              · -- the rule consumes the lookahead token
                split at h
                · exact absurd h (by simp)
                · obtain ⟨h1, h2⟩ := ih _
                    (by simp only [List.length_cons] at hle; omega) _ (some token) ws
                    (mem_concat_surfOK hws
                      (eat_token_surfOK (new_word_surfOK token _ _) _ _)) h
                  refine ⟨h1, ?_⟩
                  rw [h2]
                  simp [eat_token, new_word, List.flatMap_append]
              · -- plain new word
                obtain ⟨h1, h2⟩ := ih _
                  (by simp only [List.length_cons] at hle; omega) _ (some token) ws
                  (mem_concat_surfOK hws (new_word_surfOK token _ _)) h
                refine ⟨h1, ?_⟩
                rw [h2]
                simp [new_word, List.flatMap_append]

lemma sjoin_words : ∀ (ws : List Word), (∀ w ∈ ws, wordSurfOK w) →
    sjoin (ws.map fun w => w.word) =
      sjoin ((ws.flatMap fun w => w.tokens).map fun t => t.literal)
  | [], _ => rfl
  | a :: ws, h => by
      have ha : a.word = sjoin (a.tokens.map fun t => t.literal) := h a (by simp)
      have ih := sjoin_words ws (fun w hw => h w (by simp [hw]))
      simp only [List.map_cons, sjoin, List.flatMap_cons, List.map_append, sjoin_append]
      rw [ha, ih]

/-- C1: round-trip surface integrity and total coverage. Whenever
`parse_into_words` succeeds, the concatenation of the output words'
surfaces equals the concatenation of the input tokens' literals, the
ordered concatenation of the words' constituent-token lists is exactly the
input token sequence (so every input token lands in exactly one word, in
order, none dropped or duplicated), and the total constituent-token count
equals the input length. -/
theorem parse_into_words_roundtrip (tokens : List PreparedToken) (ws : List Word)
    (h : parse_into_words tokens = Except.ok ws) :
    sjoin (ws.map fun w => w.word) = sjoin (tokens.map fun t => t.literal) ∧
    ws.flatMap (fun w => w.tokens) = tokens ∧
    (ws.map fun w => w.tokens.length).sum = tokens.length := by
  obtain ⟨hok, hflat⟩ :=
    parseLoop_ok_aux tokens.length tokens le_rfl [] none ws (by simp) h
  simp only [List.flatMap_nil, List.nil_append] at hflat
  refine ⟨?_, hflat, ?_⟩
  · rw [← hflat]
    exact sjoin_words ws hok
  · rw [← hflat]
    simp [List.flatMap, Function.comp_def]

/-- C1 witness: the round-trip property instantiated at the concrete
two-token numeral input 3 then 000, which aggregates into the single word
3000. -/
theorem parse_into_words_roundtrip_witness :
    parse_into_words [tokNum3, tokNum000] =
      Except.ok [⟨"3000", "3000", PartOfSpeech.Number, [tokNum3, tokNum000],
        ⟨"サン", "サン", none⟩⟩] ∧
    (sjoin ([(⟨"3000", "3000", PartOfSpeech.Number, [tokNum3, tokNum000],
        ⟨"サン", "サン", none⟩⟩ : Word)].map fun w => w.word) =
      sjoin ([tokNum3, tokNum000].map fun t => t.literal) ∧
    [(⟨"3000", "3000", PartOfSpeech.Number, [tokNum3, tokNum000],
        ⟨"サン", "サン", none⟩⟩ : Word)].flatMap (fun w => w.tokens) =
      [tokNum3, tokNum000] ∧
    ([(⟨"3000", "3000", PartOfSpeech.Number, [tokNum3, tokNum000],
        ⟨"サン", "サン", none⟩⟩ : Word)].map fun w => w.tokens.length).sum =
      [tokNum3, tokNum000].length) :=
  ⟨rfl, parse_into_words_roundtrip [tokNum3, tokNum000] _ rfl⟩

lemma parseLoop_never_missing : ∀ (n : ℕ) (rest : List PreparedToken), rest.length ≤ n →
    ∀ (words : List Word) (previous : Option PreparedToken),
    isMissingLookahead (parseLoop rest words previous) = false := by
  intro n
  induction n with
  | zero =>
      intro rest hle words previous
      have hnil : rest = [] := List.eq_nil_of_length_eq_zero (Nat.le_zero.mp hle)
      subst hnil
      rfl
  | succ n ih =>
      intro rest hle words previous
      cases rest with
      | nil => rfl
      | cons token rest =>
          simp only [parseLoop]
          split
          · rfl
          · split
            · exact ih rest (by simp only [List.length_cons] at hle; omega) _ _
            · split
              · split
                · rename_i _ heat
                  have hne : (decide_rule token (List.head? []) ((words.getLast?).map
                      fun w => w.part_of_speech) previous).eat_next = false :=
                    decide_rule_no_peek_no_eat _ _ _
                  rw [hne] at heat
                  simp at heat
                · exact ih _ (by simp only [List.length_cons] at hle; omega) _ _
              · exact ih rest (by simp only [List.length_cons] at hle; omega) _ _

/-- C5 (amended): `parse_into_words` never returns `MissingLookaheadToken`
on any input: every rule that sets `eat_next` is guarded by a successful
`iter.peek()` (src/lib.rs:256, 276), so whenever the flag is set a
following token exists, and the bail at src/lib.rs:452 is unreachable. In
particular a sequence ending in an adjectival-stem Noun succeeds with the
final token classified by its fall-back rule instead of failing. -/
theorem parse_into_words_never_missing_lookahead (tokens : List PreparedToken) :
    isMissingLookahead (parse_into_words tokens) = false :=
  parseLoop_never_missing tokens.length tokens le_rfl [] none

lemma decide_rule_pos_isSome (t : PreparedToken) (pk : Option PreparedToken)
    (lw : Option PartOfSpeech) (prev : Option PreparedToken)
    (hm : t.pos ∈ handledPrimary) : ((decide_rule t pk lw prev).pos).isSome = true := by
  obtain ⟨lit, pos, pos2, pos3, pos4, it, ifm, lem, rd, ht⟩ := t
  simp only [handledPrimary, List.mem_cons, List.mem_singleton, List.not_mem_nil,
    or_false] at hm
  rcases hm with rfl | rfl | rfl | rfl | rfl | rfl | rfl | rfl | rfl | rfl | rfl | rfl | rfl <;>
    simp only [decide_rule] <;> (repeat' split) <;> rfl

lemma decide_rule_pos_none (t : PreparedToken) (pk : Option PreparedToken)
    (lw : Option PartOfSpeech) (prev : Option PreparedToken)
    (hm : t.pos ∉ handledPrimary) : (decide_rule t pk lw prev).pos = none := by
  obtain ⟨lit, pos, pos2, pos3, pos4, it, ifm, lem, rd, ht⟩ := t
  cases pos <;> first | rfl | (refine absurd ?_ hm; simp [handledPrimary])

lemma parse_into_words_single (t : PreparedToken) :
    parse_into_words [t] =
      match (decide_rule t none none none).pos with
      | none => Except.error (AggError.unresolvedPartOfSpeech t.literal)
      | some p => Except.ok [new_word t p (decide_rule t none none none).grammar] := by
  simp only [parse_into_words, parseLoop, List.head?_nil, List.getLast?_nil, Option.map_none']
  cases hp : (decide_rule t none none none).pos with
  | none => simp [hp]
  | some p =>
      simp [hp, decide_rule_no_peek_no_eat t none none, parseLoop]

/-- C10: implicit failure characterization. The rule grammar leaves the
part of speech unassigned exactly when the token's primary POS tag is
outside the thirteen handled primary categories; in particular a Noun
(名詞) token always resolves to some coarse part of speech — to plain Noun
when its sub-category matches no rule (e.g. `Unset` or `Unknown` — and for
a single-token input, `parse_into_words` fails with the
part-of-speech-unrecognized error precisely when the primary tag is
unhandled, succeeding otherwise. -/
theorem unresolved_pos_characterization (t : PreparedToken) (peeked : Option PreparedToken)
    (lw : Option PartOfSpeech) (prev : Option PreparedToken) :
    ((decide_rule t peeked lw prev).pos = none ↔ t.pos ∉ handledPrimary) ∧
    (t.pos = POS.Meishi → ∃ p, (decide_rule t peeked lw prev).pos = some p) ∧
    ((t.pos = POS.Meishi ∧ (t.pos2 = POS.Unset ∨ t.pos2 = POS.Unknown)) →
      (decide_rule t peeked lw prev).pos = some PartOfSpeech.Noun) ∧
    (parse_into_words [t] = Except.error (AggError.unresolvedPartOfSpeech t.literal) ↔
      t.pos ∉ handledPrimary) ∧
    (t.pos ∈ handledPrimary → ∃ ws, parse_into_words [t] = Except.ok ws) := by
  have hiff : ∀ (pk : Option PreparedToken) (lwp : Option PartOfSpeech)
      (pv : Option PreparedToken),
      (decide_rule t pk lwp pv).pos = none ↔ t.pos ∉ handledPrimary := by
    intro pk lwp pv
    constructor
    · intro hn
      by_contra hmem
      have hs := decide_rule_pos_isSome t pk lwp pv hmem
      rw [hn] at hs
      simp at hs
    · exact decide_rule_pos_none t pk lwp pv
  refine ⟨hiff peeked lw prev, ?_, ?_, ?_, ?_⟩
  · intro hM
    have hmem : t.pos ∈ handledPrimary := by rw [hM]; decide
    have hs := decide_rule_pos_isSome t peeked lw prev hmem
    exact Option.isSome_iff_exists.mp hs
  · rintro ⟨hM, hsub⟩
    obtain ⟨lit, pos, pos2, pos3, pos4, it, ifm, lem, rd, ht⟩ := t
    simp only at hM hsub
    subst hM
    rcases hsub with rfl | rfl <;> cases peeked <;> rfl
  · rw [parse_into_words_single t]
    cases hp : (decide_rule t none none none).pos with
    | none =>
        simp only []
        constructor
        · intro _
          exact (hiff none none none).mp hp
        · intro _
          trivial
    | some p =>
        simp only []
        constructor
        · intro hcontr
          cases hcontr
        · intro hmem
          exact absurd (decide_rule_pos_none t none none none hmem) (by simp [hp])
  · intro hmem
    rw [parse_into_words_single t]
    cases hp : (decide_rule t none none none).pos with
    | none =>
        exact absurd ((hiff none none none).mp hp) (not_not.mpr hmem)
    | some p =>
        exact ⟨_, rfl⟩

/-- C10 witness: the characterization applied to the concrete plain-noun
token 深 (名詞 with `Unset` sub-categories): its rule resolves to some part
of speech and the single-token parse succeeds. -/
theorem unresolved_pos_characterization_witness :
    (∃ p, (decide_rule tokNoun none none none).pos = some p) ∧
    (∃ ws, parse_into_words [tokNoun] = Except.ok ws) :=
  ⟨(unresolved_pos_characterization tokNoun none none none).2.1 rfl,
    (unresolved_pos_characterization tokNoun none none none).2.2.2.2 (by decide)⟩

/-- C9: numeral chaining. A 名詞/数 token is classified Number; when the
most recently emitted word is itself a Number, the token attaches to it
with surface, reading, transcription AND lemma all extended (two
consecutive numerals merge into one word with concatenated surface and
lemma); when no word was emitted, or the last word is not a Number, a new
Number word starts instead. -/
theorem numeral_chaining (a b n : PreparedToken)
    (ha : a.pos = POS.Meishi) (ha2 : a.pos2 = POS.Kazu)
    (hb : b.pos = POS.Meishi) (hb2 : b.pos2 = POS.Kazu)
    (hn : n.pos = POS.Meishi) (hn2 : n.pos2 = POS.Unset) :
    parse_into_words [a, b] =
      Except.ok [⟨a.literal ++ b.literal, a.«lemma» ++ b.«lemma», PartOfSpeech.Number,
        [a, b], ⟨a.reading ++ b.reading, a.hatsuon ++ b.hatsuon, none⟩⟩] ∧
    parse_into_words [a] =
      Except.ok [⟨a.literal, a.«lemma», PartOfSpeech.Number, [a],
        ⟨a.reading, a.hatsuon, none⟩⟩] ∧
    parse_into_words [n, a] =
      Except.ok [⟨n.literal, n.«lemma», PartOfSpeech.Noun, [n],
        ⟨n.reading, n.hatsuon, none⟩⟩,
        ⟨a.literal, a.«lemma», PartOfSpeech.Number, [a],
          ⟨a.reading, a.hatsuon, none⟩⟩] := by
  refine ⟨?_, ?_, ?_⟩ <;>
    simp [parse_into_words, parseLoop, decide_rule, rdefault, ha, ha2, hb, hb2, hn, hn2,
      new_word, attach_token, modifyLast]

/-- C9 witness: the chaining property at the concrete numerals 3 and 000
and the plain noun 深. -/
theorem numeral_chaining_witness :
    parse_into_words [tokNum3, tokNum000] =
      Except.ok [⟨"3" ++ "000", "3" ++ "000", PartOfSpeech.Number,
        [tokNum3, tokNum000], ⟨"サン" ++ "", "サン" ++ "", none⟩⟩] ∧
    parse_into_words [tokNum3] =
      Except.ok [⟨"3", "3", PartOfSpeech.Number, [tokNum3], ⟨"サン", "サン", none⟩⟩] ∧
    parse_into_words [tokNoun, tokNum3] =
      Except.ok [⟨"深", "深", PartOfSpeech.Noun, [tokNoun], ⟨"フカ", "フカ", none⟩⟩,
        ⟨"3", "3", PartOfSpeech.Number, [tokNum3], ⟨"サン", "サン", none⟩⟩] :=
  numeral_chaining tokNum3 tokNum000 tokNoun rfl rfl rfl rfl rfl rfl

/-- C7: auxiliary fusion. A 動詞 token that has formed a word, immediately
followed by a 助動詞 token whose inflection type is one of 特殊・タ/ナイ/
タイ/マス/ヌ, where the preceding token's second-level tag is not 係助詞,
yields exactly one word: the auxiliary attaches to the verb's word, the
part of speech stays Verb, surface/reading/transcription gain the
auxiliary's fields, and the lemma is unchanged. -/
theorem auxiliary_fusion (v aux : PreparedToken)
    (hv : v.pos = POS.Doushi) (hvk : v.pos2 ≠ POS.Kakarijoshi)
    (ha : aux.pos = POS.JoDoushi)
    (hm : aux.inflection_type ∈ [POS.TokushuTa, POS.TokushuNai, POS.TokushuTai,
      POS.TokushuMasu, POS.TokushuNu]) :
    parse_into_words [v, aux] =
      Except.ok [⟨v.literal ++ aux.literal, v.«lemma», PartOfSpeech.Verb, [v, aux],
        ⟨v.reading ++ aux.reading, v.hatsuon ++ aux.hatsuon, none⟩⟩] := by
  simp only [List.mem_cons, List.not_mem_nil, or_false] at hm
  by_cases h1 : v.pos2 = POS.Setsubi <;>
    by_cases h2 : v.pos2 = POS.Hijiritsu ∧ v.inflection_form ≠ POS.MeireiI <;>
    rcases hm with hm | hm | hm | hm | hm <;>
    simp [parse_into_words, parseLoop, decide_rule, rdefault, hv, hvk, ha, hm, h1, h2,
      new_word, attach_token, modifyLast, Option.any]

/-- C7 witness: fusion of the concrete verb stem 食べ with the past
auxiliary た into the single Verb word 食べた. -/
theorem auxiliary_fusion_witness :
    parse_into_words [tokVerb, tokTa] =
      Except.ok [⟨"食べ" ++ "た", "食べる", PartOfSpeech.Verb, [tokVerb, tokTa],
        ⟨"タベ" ++ "タ", "タベ" ++ "タ", none⟩⟩] :=
  auxiliary_fusion tokVerb tokTa rfl (by decide) rfl (by decide)

/-- C8 (amended): suffix lemma extension. A 名詞/接尾 token that is neither
a person-name suffix (pos3 = 人名) nor the special nominalizer さ
(pos3 = 特殊 with lemma さ) attaches to the previously emitted word,
extending surface, reading, transcription AND lemma; the さ case still
attaches and extends surface/reading/transcription but leaves the lemma
unchanged, instead overriding the word's part of speech with Noun.
Otherwise a word's lemma equals its first constituent token's lemma. -/
theorem suffix_lemma_extension (nt s s2 : PreparedToken)
    (hn : nt.pos = POS.Meishi) (hn2 : nt.pos2 = POS.Unset)
    (hs : s.pos = POS.Meishi) (hs2 : s.pos2 = POS.Setsubi)
    (hs3 : s.pos3 ≠ POS.Jinmei) (hsa : ¬(s.pos3 = POS.Tokushu ∧ s.«lemma» = SA))
    (h2 : s2.pos = POS.Meishi) (h22 : s2.pos2 = POS.Setsubi) (h23 : s2.pos3 = POS.Tokushu)
    (h2l : s2.«lemma» = SA) :
    parse_into_words [nt, s] =
      Except.ok [⟨nt.literal ++ s.literal, nt.«lemma» ++ s.«lemma», PartOfSpeech.Noun,
        [nt, s], ⟨nt.reading ++ s.reading, nt.hatsuon ++ s.hatsuon, none⟩⟩] ∧
    parse_into_words [nt, s2] =
      Except.ok [⟨nt.literal ++ s2.literal, nt.«lemma», PartOfSpeech.Noun,
        [nt, s2], ⟨nt.reading ++ s2.reading, nt.hatsuon ++ s2.hatsuon, none⟩⟩] := by
  constructor
  · simp [parse_into_words, parseLoop, decide_rule, rdefault, hn, hn2, hs, hs2, hs3, hsa,
      new_word, attach_token, modifyLast]
  · simp [parse_into_words, parseLoop, decide_rule, rdefault, hn, hn2, h2, h22, h23, h2l,
      new_word, attach_token, modifyLast]

/-- C8 witness: the ordinary suffix 達 extends the lemma of the noun word
深 (深 + 達, lemma 深達), while the nominalizer さ attaches without lemma
extension (深 + さ, lemma stays 深). -/
theorem suffix_lemma_extension_witness :
    parse_into_words [tokNoun, tokTachi] =
      Except.ok [⟨"深" ++ "達", "深" ++ "達", PartOfSpeech.Noun, [tokNoun, tokTachi],
        ⟨"フカ" ++ "タチ", "フカ" ++ "タチ", none⟩⟩] ∧
    parse_into_words [tokNoun, tokSa] =
      Except.ok [⟨"深" ++ "さ", "深", PartOfSpeech.Noun, [tokNoun, tokSa],
        ⟨"フカ" ++ "サ", "フカ" ++ "サ", none⟩⟩] :=
  suffix_lemma_extension tokNoun tokTachi tokSa rfl rfl rfl rfl (by decide) (by decide)
    rfl rfl rfl rfl

/-- C6 (amended): the `previous` reference consulted by the auxiliary-verb
binding-particle condition is the token handled by the main loop in the
preceding iteration — NOT the consumed lookahead token. When a rule
consumes its lookahead (here: a サ変接続 noun t1 eating the following
サ変・スル token t2), the next token's rule sees the trigger t1 as
previous: a following 特殊・タ auxiliary t3 attaches and one word results
REGARDLESS of t2's second-level tag (t2.pos2 is unconstrained below, so
the result holds even when t2 is tagged 係助詞). -/
theorem previous_is_trigger_token (t1 t2 t3 : PreparedToken)
    (h1 : t1.pos = POS.Meishi) (h12 : t1.pos2 = POS.Sahensetsuzoku)
    (h2 : t2.inflection_type = POS.SahenSuru)
    (h3 : t3.pos = POS.JoDoushi) (h3i : t3.inflection_type = POS.TokushuTa) :
    parse_into_words [t1, t2, t3] =
      Except.ok [⟨(t1.literal ++ t2.literal) ++ t3.literal, t1.«lemma», PartOfSpeech.Verb,
        [t1, t2, t3], ⟨(t1.reading ++ t2.reading) ++ t3.reading,
          (t1.hatsuon ++ t2.hatsuon) ++ t3.hatsuon, none⟩⟩] := by
  have h12' : t1.pos2 ≠ POS.Kakarijoshi := by rw [h12]; decide
  simp [parse_into_words, parseLoop, decide_rule, rdefault, h1, h12, h12', h2, h3, h3i,
    new_word, eat_token, attach_token, modifyLast, Option.any]

/-- C6 (amended) witness: 勉強 eats し (tagged 係助詞 at the second level)
and the following た still attaches, producing the single word 勉強した —
showing `previous` for た was 勉強, not the consumed し. -/
theorem previous_is_trigger_token_witness :
    parse_into_words [tokBenkyou, tokShi, tokTa] =
      Except.ok [⟨("勉強" ++ "し") ++ "た", "勉強", PartOfSpeech.Verb,
        [tokBenkyou, tokShi, tokTa],
        ⟨("ベンキョウ" ++ "シ") ++ "タ", ("ベンキョー" ++ "シ") ++ "タ", none⟩⟩] :=
  previous_is_trigger_token tokBenkyou tokShi tokTa rfl rfl rfl rfl rfl

lemma prepare_token_fields (rt : RawToken) (p p2 p3 p4 it ifm : String)
    (rest : List String)
    (hfs : splitComma rt.feature = p :: p2 :: p3 :: p4 :: it :: ifm :: rest) :
    prepare_token rt =
      if POS.fromStr p = POS.Unset then
        RustResult.err (PrepError.unrecognizedPrimaryPos rt.surface)
      else
        RustResult.ok
          { literal := rt.surface
            pos := POS.fromStr p
            pos2 := POS.fromStr p2
            pos3 := POS.fromStr p3
            pos4 := POS.fromStr p4
            inflection_type := POS.fromStr it
            inflection_form := POS.fromStr ifm
            «lemma» := (rest.get? 1).getD ""
            reading := (rest.get? 2).getD ""
            hatsuon := (rest.get? 3).getD "" } := by
  simp only [prepare_token, hfs]
  rfl

lemma prepare_tokens_singleton (rt : RawToken) :
    prepare_tokens [rt] =
      match prepare_token rt with
      | RustResult.ok t => RustResult.ok [t]
      | RustResult.err e => RustResult.err e
      | RustResult.panicked m => RustResult.panicked m := by
  simp only [prepare_tokens]
  cases prepare_token rt <;> rfl

/-- C2 (amended): primary-POS rejection happens for the wildcard only.
Given a raw morpheme whose feature string splits into at least 6 fields,
`prepare_tokens` fails with `UnrecognizedPrimaryPos` (naming the offending
surface form) IF AND ONLY IF the first field is the wildcard `*` (the one
label mapping to `Unset`); a first field carrying an unrecognized label
maps to `Unknown` and is accepted, the token keeping `Unknown` as its
primary tag (such a token only fails later, in aggregation, with the
part-of-speech-unrecognized error). -/
theorem prepare_tokens_primary_rejection (rt : RawToken) (p p2 p3 p4 it ifm : String)
    (rest : List String)
    (hfs : splitComma rt.feature = p :: p2 :: p3 :: p4 :: it :: ifm :: rest) :
    (prepare_tokens [rt] = RustResult.err (PrepError.unrecognizedPrimaryPos rt.surface) ↔
      POS.fromStr p = POS.Unset) ∧
    (POS.fromStr p ≠ POS.Unset →
      ∃ t, prepare_tokens [rt] = RustResult.ok [t] ∧ t.pos = POS.fromStr p) := by
  have hpt := prepare_token_fields rt p p2 p3 p4 it ifm rest hfs
  rw [prepare_tokens_singleton rt, hpt]
  by_cases hu : POS.fromStr p = POS.Unset
  · rw [if_pos hu]
    exact ⟨⟨fun _ => hu, fun _ => rfl⟩, fun hc => absurd hu hc⟩
  · rw [if_neg hu]
    refine ⟨⟨fun hc => ?_, fun hc => absurd hc hu⟩, fun _ => ⟨_, rfl, rfl⟩⟩
    cases hc

/-- C2 (amended) witness: the amended rejection rule at the concrete raw
morpheme `{surface: "x", feature: "zzz,*,*,*,*,*"}`, whose first field is
the unrecognized label zzz. -/
theorem prepare_tokens_primary_rejection_witness :
    (prepare_tokens [⟨"x", "zzz,*,*,*,*,*"⟩] =
        RustResult.err (PrepError.unrecognizedPrimaryPos "x") ↔
      POS.fromStr "zzz" = POS.Unset) ∧
    (POS.fromStr "zzz" ≠ POS.Unset →
      ∃ t, prepare_tokens [⟨"x", "zzz,*,*,*,*,*"⟩] = RustResult.ok [t] ∧
        t.pos = POS.fromStr "zzz") :=
  prepare_tokens_primary_rejection ⟨"x", "zzz,*,*,*,*,*"⟩ "zzz" "*" "*" "*" "*" "*" [] rfl

end Vers
